import Mathlib

/-!
Verification development for the broadcast dispatcher in
`aiogram_broadcaster/base.py` (class `BaseBroadcaster`).

The embedding models Python values that can appear in a target record as
`Val` (int or str), Python dicts as insertion-ordered association lists
with the usual first-occurrence lookup, and the three relevant exception
kinds (`TypeError`, `ValueError`, `AttributeError`) plus the library's
`RunningError`.  `setup_chats` is a direct translation of
`BaseBroadcaster._setup_chats`, `run` of `BaseBroadcaster.run`, and
`successful` of the `successful` property.
-/

deriving instance DecidableEq for Except

namespace AiogramBroadcaster

/-- A Python scalar usable as a chat identifier or attribute value:
an int or a str. -/
inductive Val where
  | vint (n : Int)
  | vstr (s : String)
deriving DecidableEq, Repr

/-- Python truthiness of a `Val`: `0` and `""` are falsy. -/
def Val.truthy : Val → Bool
  | .vint n => n != 0
  | .vstr s => s != ""

/-- A Python dict with string keys, modelled as an insertion-ordered
association list.  Dicts produced by Python operations never carry a
duplicate key; where a lemma needs that, it takes a `NodupKeys`
hypothesis. -/
abbrev Dict := List (String × Val)

/-- Lookup `d[k]`, returning the first occurrence (`dict.get`). -/
def Dict.get : Dict → String → Option Val
  | [], _ => none
  | (k0, v0) :: d, k => if k0 = k then some v0 else Dict.get d k

/-- Assignment `d[k] = v`: update in place keeping the key's position if present,
else append at the end, exactly as a Python dict assignment does. -/
def Dict.insert : Dict → String → Val → Dict
  | [], k, v => [(k, v)]
  | (k0, v0) :: d, k, v =>
      if k0 = k then (k, v) :: d else (k0, v0) :: Dict.insert d k v

/-- Dict spread of `a` then `b`: start from `a` and assign every entry
of `b` in order, so `b` wins on key collisions. -/
def Dict.merge (a b : Dict) : Dict :=
  b.foldl (fun acc p => Dict.insert acc p.1 p.2) a

/-- Removal of a key (`dict.pop` leaves the dict in this state). -/
def Dict.eraseKey (d : Dict) (k : String) : Dict :=
  d.filter (fun p => p.1 != k)

/-- The keys of the dict, in order. -/
def Dict.keys (d : Dict) : List String := d.map Prod.fst

/-- The dict has no duplicate key (true of every real Python dict). -/
def Dict.NodupKeys (d : Dict) : Prop := d.keys.Nodup

instance (d : Dict) : Decidable (Dict.NodupKeys d) := by
  unfold Dict.NodupKeys; infer_instance

/-- Lexicographic order on code-point lists: Python's `str` order. -/
def lexLe : List Nat → List Nat → Bool
  | [], _ => true
  | _ :: _, [] => false
  | x :: xs, y :: ys => if x < y then true else if y < x then false else lexLe xs ys

/-- Python's `<=` on strings: lexicographic by Unicode code point. -/
def strLe (a b : String) : Bool :=
  lexLe (a.toList.map Char.toNat) (b.toList.map Char.toNat)

/-- Insertion sort on key lists; stands in for Python's `sorted`. -/
def insertSorted (x : String) : List String → List String
  | [] => [x]
  | y :: ys => if strLe x y then x :: y :: ys else y :: insertSorted x ys

/-- Python's `sorted(keys)`. -/
def sortKeys (l : List String) : List String := l.foldr insertSorted []

/-- The exceptions `_setup_chats` can raise. -/
inductive PyErr where
  | typeError
  | valueError (msg : String)
  | attributeError (msg : String)
deriving DecidableEq, Repr

/-- One element of a `chats` list argument: an int/str scalar, a dict
record, or a value of any other Python type. -/
inductive ChatElem where
  | scalar (v : Val)
  | record (d : Dict)
  | other
deriving DecidableEq, Repr

def ChatElem.isScalar : ChatElem → Bool
  | .scalar _ => true
  | _ => false

def ChatElem.isRecord : ChatElem → Bool
  | .record _ => true
  | _ => false

def ChatElem.asRecord : ChatElem → Option Dict
  | .record d => some d
  | _ => none

/-- The `chats` argument itself: an int/str scalar, a list, or a value
of any other Python type. -/
inductive ChatsInput where
  | scalar (v : Val)
  | list (es : List ChatElem)
  | other
deriving DecidableEq, Repr

/-- Truthiness of `chat.get('chat_id')`: false when the key is missing
(`None`) or its value is falsy (`0`, `""`). -/
def idTruthy (c : Dict) : Bool :=
  match Dict.get c "chat_id" with
  | none => false
  | some v => v.truthy

/-- Source method `_chek_identical_keys` (typo preserved from source):
every dict after the first has the same `sorted(keys)` as the first. -/
def chek_identical_keys : List Dict → Bool
  | [] => true
  | d0 :: rest => rest.all (fun d => sortKeys d.keys == sortKeys d0.keys)

/-- The record-branch comprehension body
`{'chat_id': chat.pop('chat_id'), **chat, **args}`, guarded by
`if chat.get('chat_id', None)` as in the source comprehension. -/
def build_record_target (args : Dict) (c : Dict) : Option Dict :=
  if idTruthy c then
    (Dict.get c "chat_id").map
      (fun v => Dict.merge (Dict.merge [( "chat_id", v)] (c.eraseKey "chat_id")) args)
  else none

/-- Source method `_setup_chats` of `BaseBroadcaster`.  The result is
`Except` for a raised exception; `Option` distinguishes the silent
fall-through in which `self.chats` is never assigned (`ok none`) from a
normal assignment (`ok (some ts)`).  `args = none` models `args=None`
(the default): spreading `**None` raises `TypeError`, but only when the
comprehension body actually runs for some element. -/
def setup_chats (chats : ChatsInput) (args : Option Dict) :
    Except PyErr (Option (List Dict)) :=
  match chats with
  | .scalar v =>
      match args with
      | none => .error .typeError
      | some a => .ok (some [Dict.merge [( "chat_id", v)] a])
  | .list es =>
      if es.all ChatElem.isScalar then
        match args with
        | none => if es.isEmpty then .ok (some []) else .error .typeError
        | some a =>
            .ok (some (es.filterMap (fun e =>
              match e with
              | .scalar v => some (Dict.merge [( "chat_id", v)] a)
              | _ => none)))
      else if es.all ChatElem.isRecord then
        let rs := es.filterMap ChatElem.asRecord
        if !rs.all idTruthy then
          .error (.valueError "Not all dictionaries have the \"chat_id\" key")
        else if !chek_identical_keys rs then
          .error (.valueError "Not all dictionaries have identical keys")
        else
          match args with
          | none =>
              if (rs.filter idTruthy).isEmpty then .ok (some [])
              else .error .typeError
          | some a => .ok (some (rs.filterMap (build_record_target a)))
      else
        .ok none
  | .other => .error (.attributeError "argument chats: expected ChatsType")

/-- The state of the caller's `chats` argument after `_setup_chats`
returns (or raises).  The record branch executes `chat.pop('chat_id')`
inside the comprehension, mutating each caller-supplied record whose
guard was evaluated true.  With `args=None` the first body evaluation
raises `TypeError` right after its `pop`, so only the first guarded
record has been mutated; with a real `args` dict every guarded record
is mutated.  All other branches never touch the input. -/
def pop_all_records (es : List ChatElem) : List ChatElem :=
  es.map (fun e =>
    match e with
    | .record c => if idTruthy c then .record (c.eraseKey "chat_id") else .record c
    | e => e)

def pop_first_record : List ChatElem → List ChatElem
  | [] => []
  | .record c :: rest =>
      if idTruthy c then .record (c.eraseKey "chat_id") :: rest
      else .record c :: pop_first_record rest
  | e :: rest => e :: pop_first_record rest

def setup_chats_final (chats : ChatsInput) (args : Option Dict) : ChatsInput :=
  match chats with
  | .list es =>
      if es.all ChatElem.isScalar then chats
      else if es.all ChatElem.isRecord then
        let rs := es.filterMap ChatElem.asRecord
        if !rs.all idTruthy then chats
        else if !chek_identical_keys rs then chats
        else
          match args with
          | none => .list (pop_first_record es)
          | some _ => .list (pop_all_records es)
      else chats
  | _ => chats

/-- The error raised by the `successful` property. -/
inductive RunErr where
  | runningError
deriving DecidableEq, Repr

/-- The per-instance state of a `BaseBroadcaster`, restricted to the
fields the dispatcher semantics uses.  `timeout` is the throttle
interval (a float in the source, embedded as an exact rational). -/
structure Broadcaster where
  chats : List Dict
  timeout : ℚ
  _id : Nat
  _is_running : Bool
  _successful : List (Option Val)
  _failure : List Dict
deriving DecidableEq, Repr

/-- Source constructor `__init__`, restricted to `_setup_chats` and the
outcome/state fields: `_id = len(running)`, `_is_running = False`,
`_successful = []`, `_failure = []`.  `ok none` is the constructed
object that is missing its `chats` attribute (silent `_setup_chats`
fall-through). -/
def init_broadcaster (chats : ChatsInput) (args : Option Dict)
    (timeout : ℚ) (regLen : Nat) : Except PyErr (Option Broadcaster) :=
  match setup_chats chats args with
  | .error e => .error e
  | .ok none => .ok none
  | .ok (some ts) => .ok (some ⟨ts, timeout, regLen, false, [], []⟩)

/-- The `successful` property: raises `RunningError` whenever
`_is_running` is false, else returns the live `_successful` list. -/
def successful (b : Broadcaster) : Except RunErr (List (Option Val)) :=
  if !b._is_running then .error .runningError else .ok b._successful

/-- Source method `_parse_args`: the pair of `chat.get('chat_id')` and `chat` —
the full dict, identifier key included, is passed on as the args. -/
def parse_args (chat : Dict) : Option Val × Dict :=
  (Dict.get chat "chat_id", chat)

/-- A delivery capability: `send(chat_id, chat_args)`.  `none` models
`send` raising an exception; `some b` a returned boolean. -/
abbrev Send := Option Val → Dict → Option Bool

/-- The result of `run()`: the broadcaster state, the class-level
`running` registry (as the `_id`s of its members), the total time
spent in `asyncio.sleep`, and whether an exception propagated. -/
structure RunResult where
  bc : Broadcaster
  reg : List Nat
  slept : ℚ
  raised : Bool
deriving DecidableEq, Repr

/-- The `for chat in self.chats` loop of `run()`: classify each send's
result, then sleep `self.timeout` — unconditionally, also after the
last target.  A raised send aborts the loop at once (no append, no
sleep for that target). -/
def runLoop (send : Send) : List Dict → Broadcaster → ℚ → Broadcaster × ℚ × Bool
  | [], b, t => (b, t, false)
  | chat :: rest, b, t =>
      let p := parse_args chat
      match send p.1 p.2 with
      | none => (b, t, true)
      | some true =>
          runLoop send rest { b with _successful := b._successful ++ [p.1] } (t + b.timeout)
      | some false =>
          runLoop send rest { b with _failure := b._failure ++ [chat] } (t + b.timeout)

/-- Source coroutine `run()`: set `_is_running`, append `self` to the
class-level registry, run the loop; on normal completion clear
`_is_running` and remove `self` from the registry.  When the loop
raises, the exception propagates before either cleanup step. -/
def run (b : Broadcaster) (reg : List Nat) (send : Send) : RunResult :=
  match runLoop send b.chats { b with _is_running := true } 0 with
  | (b2, t, true) => ⟨b2, reg ++ [b._id], t, true⟩
  | (b2, t, false) =>
      ⟨{ b2 with _is_running := false }, (reg ++ [b._id]).erase b._id, t, false⟩

/-! ### Dictionary lemmas -/

theorem Dict.keys_cons (k0 : String) (v0 : Val) (d : Dict) :
    Dict.keys ((k0, v0) :: d) = k0 :: Dict.keys d := rfl

theorem Dict.nodupKeys_cons (k0 : String) (v0 : Val) (d : Dict) :
    Dict.NodupKeys ((k0, v0) :: d) ↔ k0 ∉ Dict.keys d ∧ Dict.NodupKeys d := by
  simp [Dict.NodupKeys, Dict.keys_cons]

theorem Dict.get_insert (d : Dict) (k k' : String) (v : Val) :
    Dict.get (Dict.insert d k v) k' = if k = k' then some v else Dict.get d k' := by
  induction d with
  | nil => simp [Dict.insert, Dict.get]
  | cons p d ih =>
      obtain ⟨k0, v0⟩ := p
      by_cases h0 : k0 = k
      · subst h0
        simp only [Dict.insert, if_pos rfl]
        by_cases h1 : k0 = k'
        · subst h1; simp [Dict.get]
        · simp [Dict.get, h1]
      · simp only [Dict.insert, if_neg h0]
        by_cases h1 : k0 = k'
        · subst h1
          have hk : ¬ k = k0 := fun hh => h0 hh.symm
          simp [Dict.get, hk]
        · simp [Dict.get, h1, ih]

theorem Dict.get_eq_none_of_not_mem (d : Dict) (k : String) (h : k ∉ Dict.keys d) :
    Dict.get d k = none := by
  induction d with
  | nil => simp [Dict.get]
  | cons p d ih =>
      obtain ⟨k0, v0⟩ := p
      rw [Dict.keys_cons] at h
      have h1 : ¬ k0 = k := fun hh => h (by simp [hh])
      have h2 : k ∉ Dict.keys d := fun hh => h (by simp [hh])
      simp [Dict.get, h1, ih h2]

theorem Dict.merge_cons (a : Dict) (k : String) (v : Val) (b : Dict) :
    Dict.merge a ((k, v) :: b) = Dict.merge (Dict.insert a k v) b := rfl

theorem Dict.get_merge (a b : Dict) (k : String) (hb : Dict.NodupKeys b) :
    Dict.get (Dict.merge a b) k = (Dict.get b k).or (Dict.get a k) := by
  induction b generalizing a with
  | nil => simp [Dict.merge, Dict.get, Option.or]
  | cons p b ih =>
      obtain ⟨k0, v0⟩ := p
      rw [Dict.nodupKeys_cons] at hb
      rw [Dict.merge_cons, ih _ hb.2]
      by_cases h : k0 = k
      · subst h
        rw [Dict.get_eq_none_of_not_mem b _ hb.1]
        simp [Dict.get, Dict.get_insert, Option.or]
      · simp [Dict.get, Dict.get_insert, h, Option.or]

theorem Dict.eraseKey_cons (k0 : String) (v0 : Val) (d : Dict) (k : String) :
    Dict.eraseKey ((k0, v0) :: d) k =
      if k0 = k then Dict.eraseKey d k else (k0, v0) :: Dict.eraseKey d k := by
  by_cases h : k0 = k <;> simp [Dict.eraseKey, List.filter_cons, bne, h]

theorem Dict.get_eraseKey (d : Dict) (k k' : String) :
    Dict.get (Dict.eraseKey d k) k' = if k' = k then none else Dict.get d k' := by
  induction d with
  | nil => simp [Dict.eraseKey, Dict.get]
  | cons p d ih =>
      obtain ⟨k0, v0⟩ := p
      rw [Dict.eraseKey_cons]
      by_cases h : k0 = k
      · subst h
        by_cases h1 : k' = k0
        · subst h1; simp [ih]
        · have hk : ¬ k0 = k' := fun hh => h1 hh.symm
          simp [Dict.get, hk, ih, h1]
      · by_cases h1 : k' = k0
        · subst h1
          have hk : ¬ k' = k := fun hh => h (by simp [hh])
          simp [Dict.get, hk, ih]
        · have hk : ¬ k0 = k' := fun hh => h1 hh.symm
          simp [Dict.get, hk, ih, h]

theorem Dict.nodupKeys_eraseKey (d : Dict) (k : String) (h : Dict.NodupKeys d) :
    Dict.NodupKeys (Dict.eraseKey d k) := by
  have hsub : List.Sublist (Dict.keys (Dict.eraseKey d k)) (Dict.keys d) :=
    List.Sublist.map Prod.fst (List.filter_sublist d)
  exact List.Nodup.sublist hsub h

/-! ### Target-construction lemmas -/

/-- The target the record branch builds from a record with a (present)
identifier: `{'chat_id': popped, **rest, **args}`. -/
def target_of (a c : Dict) : Dict :=
  match Dict.get c "chat_id" with
  | some v => Dict.merge (Dict.merge [( "chat_id", v)] (Dict.eraseKey c "chat_id")) a
  | none => c

theorem build_record_target_eq (a c : Dict) (h : idTruthy c = true) :
    build_record_target a c = some (target_of a c) := by
  rcases hv : Dict.get c "chat_id" with _ | v
  · rw [idTruthy, hv] at h; cases h
  · simp only [idTruthy, hv] at h
    simp [build_record_target, target_of, idTruthy, hv, h]

theorem get_target_of (a c : Dict) (k : String)
    (ha : Dict.NodupKeys a) (hc : Dict.NodupKeys c) (h : idTruthy c = true) :
    Dict.get (target_of a c) k = (Dict.get a k).or (Dict.get c k) := by
  rcases hv : Dict.get c "chat_id" with _ | v
  · rw [idTruthy, hv] at h; cases h
  · rw [target_of, hv]
    rw [Dict.get_merge _ _ _ ha,
      Dict.get_merge _ _ _ (Dict.nodupKeys_eraseKey c "chat_id" hc)]
    by_cases hk : k = "chat_id"
    · subst hk
      rw [Dict.get_eraseKey]
      simp [Dict.get, hv, Option.or]
    · rw [Dict.get_eraseKey]
      have hk' : ¬ ("chat_id" = k) := fun hh => hk hh.symm
      simp [Dict.get, hk, hk', Option.or]
      cases Dict.get c k <;> simp

theorem filterMap_eq_map_of_forall_some {α β : Type} (g : α → Option β) (f : α → β)
    (l : List α) (h : ∀ x ∈ l, g x = some (f x)) :
    l.filterMap g = l.map f := by
  induction l with
  | nil => simp
  | cons x l ih =>
      rw [List.filterMap_cons, h x (by simp), List.map_cons,
        ih (fun y hy => h y (by simp [hy]))]

/-- Normal form of `_setup_chats` on a nonempty list of records. -/
theorem setup_chats_record_unfold (rs : List Dict) (hne : rs ≠ []) (args : Option Dict) :
    setup_chats (.list (rs.map ChatElem.record)) args =
      (if !rs.all idTruthy then
        Except.error (.valueError "Not all dictionaries have the \"chat_id\" key")
      else if !chek_identical_keys rs then
        Except.error (.valueError "Not all dictionaries have identical keys")
      else
        match args with
        | none =>
            if (rs.filter idTruthy).isEmpty then Except.ok (some [])
            else Except.error PyErr.typeError
        | some a => Except.ok (some (rs.filterMap (build_record_target a)))) := by
  cases rs with
  | nil => exact absurd rfl hne
  | cons r rest =>
      have hsc : ((r :: rest).map ChatElem.record).all ChatElem.isScalar = false := by
        simp [ChatElem.isScalar]
      have hrc : ((r :: rest).map ChatElem.record).all ChatElem.isRecord = true := by
        simp [ChatElem.isRecord]
      have hfm : ((r :: rest).map ChatElem.record).filterMap ChatElem.asRecord = r :: rest := by
        rw [List.filterMap_map]
        have : (ChatElem.asRecord ∘ ChatElem.record) = some := by
          funext d; simp [Function.comp, ChatElem.asRecord]
        rw [this, List.filterMap_some]
      simp only [setup_chats, hsc, hrc, hfm, Bool.false_eq_true, if_false, if_true]

/-! ### Run-loop lemmas -/

/-- The delivery capability returns (truthy or falsy) on every target of
the list — i.e. it raises no exception during the run. -/
def sendOk (send : Send) (chats : List Dict) : Prop :=
  ∀ c ∈ chats, send (parse_args c).1 (parse_args c).2 ≠ none

instance (send : Send) (chats : List Dict) : Decidable (sendOk send chats) := by
  unfold sendOk; infer_instance

/-- The identifiers of the targets whose delivery returns truthy, in
sequence order. -/
def succOf (send : Send) (chats : List Dict) : List (Option Val) :=
  (chats.filter (fun c => send (parse_args c).1 (parse_args c).2 == some true)).map
    (fun c => (parse_args c).1)

/-- The full records of the targets whose delivery returns falsy, in
sequence order. -/
def failOf (send : Send) (chats : List Dict) : List Dict :=
  chats.filter (fun c => send (parse_args c).1 (parse_args c).2 == some false)

theorem runLoop_eq (send : Send) (chats : List Dict) (b : Broadcaster) (t : ℚ)
    (h : sendOk send chats) :
    runLoop send chats b t =
      ({ b with _successful := b._successful ++ succOf send chats,
                _failure := b._failure ++ failOf send chats },
        t + chats.length * b.timeout, false) := by
  induction chats generalizing b t with
  | nil => simp [runLoop, succOf, failOf]
  | cons c rest ih =>
      have hc := h c (List.mem_cons_self c rest)
      have hrest : sendOk send rest := fun x hx => h x (List.mem_cons_of_mem c hx)
      rcases hsend : send (parse_args c).1 (parse_args c).2 with _ | bb
      · exact absurd hsend hc
      · cases bb
        · simp only [runLoop, hsend, ih _ _ hrest]
          simp only [succOf, failOf, List.filter_cons, hsend]
          simp [Prod.ext_iff]
          ring
        · simp only [runLoop, hsend, ih _ _ hrest]
          simp only [succOf, failOf, List.filter_cons, hsend]
          simp [Prod.ext_iff]
          ring

theorem runLoop_is_running (send : Send) (chats : List Dict) (b : Broadcaster) (t : ℚ) :
    (runLoop send chats b t).1._is_running = b._is_running := by
  induction chats generalizing b t with
  | nil => simp [runLoop]
  | cons c rest ih =>
      rcases hsend : send (parse_args c).1 (parse_args c).2 with _ | bb
      · simp [runLoop, hsend]
      · cases bb <;> simp only [runLoop, hsend] <;> rw [ih]

theorem runLoop_raised (send : Send) (chats : List Dict) (b : Broadcaster) (t : ℚ)
    (h : ∃ c ∈ chats, send (parse_args c).1 (parse_args c).2 = none) :
    (runLoop send chats b t).2.2 = true := by
  induction chats generalizing b t with
  | nil => simp at h
  | cons c rest ih =>
      rcases hsend : send (parse_args c).1 (parse_args c).2 with _ | bb
      · simp [runLoop, hsend]
      · have hr : ∃ x ∈ rest, send (parse_args x).1 (parse_args x).2 = none := by
          rcases h with ⟨x, hx, hnone⟩
          rcases List.mem_cons.mp hx with hx | hx
          · subst hx; rw [hsend] at hnone; cases hnone
          · exact ⟨x, hx, hnone⟩
        cases bb <;> simp only [runLoop, hsend] <;> exact ih _ _ hr

/-- Normal form of `run()` when the delivery capability never raises. -/
theorem run_eq (b : Broadcaster) (reg : List Nat) (send : Send)
    (h : sendOk send b.chats) :
    run b reg send =
      ⟨{ b with _is_running := false,
                _successful := b._successful ++ succOf send b.chats,
                _failure := b._failure ++ failOf send b.chats },
        (reg ++ [b._id]).erase b._id,
        (b.chats.length : ℚ) * b.timeout, false⟩ := by
  unfold run
  rw [runLoop_eq send _ _ _ h]
  simp

/-! ### Auxiliary characterisations -/

theorem idTruthy_eq_true_iff (c : Dict) :
    idTruthy c = true ↔ ∃ v, Dict.get c "chat_id" = some v ∧ v.truthy = true := by
  rw [idTruthy]
  cases h : Dict.get c "chat_id" <;> simp

theorem idTruthy_eq_false_iff (c : Dict) :
    idTruthy c = false ↔
      (Dict.get c "chat_id" = none ∨
        ∃ v, Dict.get c "chat_id" = some v ∧ v.truthy = false) := by
  rw [idTruthy]
  cases h : Dict.get c "chat_id" <;> simp

theorem chek_identical_keys_eq_true_iff (rs : List Dict) (hne : rs ≠ []) :
    chek_identical_keys rs = true ↔
      ∀ c ∈ rs, sortKeys (Dict.keys c) = sortKeys (Dict.keys (rs.head hne)) := by
  cases rs with
  | nil => exact absurd rfl hne
  | cons d0 rest =>
      rw [chek_identical_keys, List.head_cons, List.all_eq_true]
      constructor
      · intro hh c hc
        rcases List.mem_cons.mp hc with rfl | hc
        · rfl
        · simpa using hh c hc
      · intro hh c hc
        simpa using hh c (List.mem_cons_of_mem d0 hc)

theorem get_map_of_lt {α β : Type} (f : α → β) (l : List α) (i : Nat)
    (h : i < (l.map f).length) (h' : i < l.length) :
    (l.map f).get ⟨i, h⟩ = f (l.get ⟨i, h'⟩) := by
  simp

/-! ### Claims -/

def bC1 : Broadcaster := ⟨[[( "chat_id", .vint 1)]], 0.02, 0, false, [], []⟩

def sendC1 : Send := fun _ _ => some true

/-- Claim C1, counterexample.  A freshly constructed dispatcher whose
run completed normally (`raised = false`, state `Finished`) has left
`Idle`, yet `successful` still raises `RunningError`, because the
source gates the accessor on `_is_running` alone. -/
theorem C1_counterexample :
    (run bC1 [] sendC1).raised = false ∧
    (run bC1 [] sendC1).bc._is_running = false ∧
    successful (run bC1 [] sendC1).bc = .error .runningError := by
  exact ⟨by decide, by decide, by decide⟩

/-- Claim C1 as amended: `successful` raises `RunningError` exactly when
`_is_running` is false — both before any run (Idle) and after a
completed run (Finished) — and returns the live successes list only
while a run is in progress. -/
theorem C1_successful_raises_iff_not_running (b : Broadcaster) :
    (successful b = .error .runningError ↔ b._is_running = false) ∧
    (successful b = .ok b._successful ↔ b._is_running = true) := by
  cases hb : b._is_running <;> simp [successful, hb]

/-- Claim C2: for structured-record input accepted by construction, the
effective attribute mapping of the `i`-th built target agrees, on every
key, with the record's own fields overridden by the shared defaults:
the lookup yields the shared-defaults value when the key is present
there, and the record's own value otherwise (defaults merged last,
defaults win). -/
theorem C2_merge_precedence (rs : List Dict) (a : Dict) (ts : List Dict)
    (ha : Dict.NodupKeys a) (hrs : ∀ c ∈ rs, Dict.NodupKeys c)
    (h : setup_chats (.list (rs.map ChatElem.record)) (some a) = .ok (some ts)) :
    ts.length = rs.length ∧
    ∀ i (hi : i < ts.length) (hi' : i < rs.length) (k : String),
      Dict.get (ts.get ⟨i, hi⟩) k =
        (Dict.get a k).or (Dict.get (rs.get ⟨i, hi'⟩) k) := by
  have hts : ts = rs.map (target_of a) ∧ ∀ c ∈ rs, idTruthy c = true := by
    cases rs with
    | nil =>
        simp [setup_chats] at h
        exact ⟨by simp [h], by simp⟩
    | cons r rest =>
        rw [setup_chats_record_unfold _ (by simp)] at h
        by_cases h1 : (r :: rest).all idTruthy
        · by_cases h2 : chek_identical_keys (r :: rest)
          · simp only [h1, h2, Bool.not_true, Bool.false_eq_true, if_false] at h
            have hall : ∀ c ∈ r :: rest, idTruthy c = true := List.all_eq_true.mp h1
            have hmap : (r :: rest).filterMap (build_record_target a) =
                (r :: rest).map (target_of a) :=
              filterMap_eq_map_of_forall_some _ _ _
                (fun c hc => build_record_target_eq a c (hall c hc))
            rw [hmap] at h
            simp only [Except.ok.injEq, Option.some.injEq] at h
            exact ⟨h.symm, hall⟩
          · simp [h1, h2] at h
        · simp [h1] at h
  obtain ⟨rfl, hall⟩ := hts
  refine ⟨by simp, fun i hi hi' k => ?_⟩
  rw [get_map_of_lt (target_of a) rs i hi hi']
  exact get_target_of a _ k ha (hrs _ (List.get_mem rs i hi'))
    (hall _ (List.get_mem rs i hi'))

def rsC2 : List Dict := [[( "chat_id", .vint 5), ( "opt", .vstr "a")]]

def aC2 : Dict := [( "opt", .vstr "b")]

def tsC2 : List Dict := [[( "chat_id", .vint 5), ( "opt", .vstr "b")]]

/-- Witness for C2: the record `{chat_id: 5, opt: "a"}` with shared
defaults `{opt: "b"}` builds exactly `{chat_id: 5, opt: "b"}` — the
default wins. -/
theorem C2_witness :
    setup_chats (.list (rsC2.map ChatElem.record)) (some aC2) = .ok (some tsC2) ∧
    Dict.get (tsC2.get ⟨0, by decide⟩) "opt" = some (.vstr "b") :=
  ⟨by decide,
    ((C2_merge_precedence rsC2 aC2 tsC2 (by decide) (by decide)
      (by decide)).2 0 (by decide) (by decide) "opt").trans (by decide)⟩

/-- Claim C3: the claim says a mixed scalar/record list fails with a
validation error; the code instead falls through both homogeneity tests
of `_setup_chats` with no `else`, raising nothing and never assigning
`self.chats` — construction "succeeds" with the target sequence absent
(`ok none` in the embedding). -/
theorem C3_mixed_list_silently_ignored :
    setup_chats (.list [ChatElem.scalar (.vint 1), ChatElem.record [( "chat_id", .vint 2)]])
        (some []) = .ok none ∧
    init_broadcaster (.list [ChatElem.scalar (.vint 1), ChatElem.record [( "chat_id", .vint 2)]])
        (some []) (2/100 : ℚ) 0 = .ok none := by
  exact ⟨by decide, rfl⟩

/-- Claim C4: over any target sequence on which delivery never raises,
a run starting from empty logs ends with `_successful` holding exactly
the identifiers of the truthy targets in sequence order and `_failure`
holding exactly the full records of the falsy targets. -/
theorem C4_run_outcomes (b : Broadcaster) (reg : List Nat) (send : Send)
    (hs : b._successful = []) (hf : b._failure = [])
    (h : sendOk send b.chats) :
    (run b reg send).bc._successful = succOf send b.chats ∧
    (run b reg send).bc._failure = failOf send b.chats := by
  rw [run_eq b reg send h]
  simp [hs, hf]

def bC4 : Broadcaster :=
  ⟨[[( "chat_id", .vint 1)], [( "chat_id", .vint 2)], [( "chat_id", .vint 3)]],
    0.02, 0, false, [], []⟩

def sendC4 : Send := fun i _ => some (i != some (Val.vint 2))

/-- Witness for C4: over targets `[1, 2, 3]` with delivery results
`True, False, True`, the successes are `[1, 3]` and the failures hold
exactly the target record for id `2`. -/
theorem C4_witness :
    (run bC4 [] sendC4).bc._successful = [some (.vint 1), some (.vint 3)] ∧
    (run bC4 [] sendC4).bc._failure = [[( "chat_id", .vint 2)]] := by
  have h := C4_run_outcomes bC4 [] sendC4 rfl rfl (by decide)
  exact ⟨h.1.trans (by decide), h.2.trans (by decide)⟩

/-- Claim C5: for nonempty structured-record input, construction fails
with `ValueError('Not all dictionaries have the "chat_id" key')` when
some record lacks the identifier field or carries a falsy identifier;
it fails with `ValueError('Not all dictionaries have identical keys')`
when the identifiers all pass but some record's sorted key list differs
from the first record's; and it succeeds when records are well formed. -/
theorem C5_record_validation (rs : List Dict) (a : Dict) (hne : rs ≠ []) :
    ((∃ c ∈ rs, Dict.get c "chat_id" = none ∨
        ∃ v, Dict.get c "chat_id" = some v ∧ v.truthy = false) →
      setup_chats (.list (rs.map ChatElem.record)) (some a) =
        .error (.valueError "Not all dictionaries have the \"chat_id\" key")) ∧
    ((∀ c ∈ rs, idTruthy c = true) →
      (∃ c ∈ rs, sortKeys (Dict.keys c) ≠ sortKeys (Dict.keys (rs.head hne))) →
      setup_chats (.list (rs.map ChatElem.record)) (some a) =
        .error (.valueError "Not all dictionaries have identical keys")) ∧
    ((∀ c ∈ rs, idTruthy c = true) →
      (∀ c ∈ rs, sortKeys (Dict.keys c) = sortKeys (Dict.keys (rs.head hne))) →
      ∃ ts, setup_chats (.list (rs.map ChatElem.record)) (some a) = .ok (some ts)) := by
  rw [setup_chats_record_unfold rs hne (some a)]
  refine ⟨?_, ?_, ?_⟩
  · rintro ⟨c, hc, hbad⟩
    have hfalse : idTruthy c = false := (idTruthy_eq_false_iff c).mpr hbad
    have hall : rs.all idTruthy = false := by
      rcases hall : rs.all idTruthy with _ | _
      · rfl
      · exact absurd ((List.all_eq_true.mp hall) c hc) (by simp [hfalse])
    simp [hall]
  · intro htr ⟨c, hc, hdiff⟩
    have h1 : rs.all idTruthy = true := List.all_eq_true.mpr htr
    have h2 : chek_identical_keys rs = false := by
      rcases h2 : chek_identical_keys rs with _ | _
      · rfl
      · exact absurd ((chek_identical_keys_eq_true_iff rs hne).mp h2 c hc) hdiff
    simp [h1, h2]
  · intro htr hkeys
    have h1 : rs.all idTruthy = true := List.all_eq_true.mpr htr
    have h2 : chek_identical_keys rs = true :=
      (chek_identical_keys_eq_true_iff rs hne).mpr hkeys
    exact ⟨rs.filterMap (build_record_target a), by simp [h1, h2]⟩

/-- Witness for C5: a falsy identifier (`chat_id = 0`) rejected, a key
mismatch rejected, and a well-formed record list accepted. -/
theorem C5_witness :
    setup_chats (.list [ChatElem.record [( "chat_id", .vint 0)]]) (some []) =
      .error (.valueError "Not all dictionaries have the \"chat_id\" key") ∧
    setup_chats (.list [ChatElem.record [( "chat_id", .vint 1), ( "a", .vint 1)],
                        ChatElem.record [( "chat_id", .vint 2), ( "b", .vint 1)]]) (some []) =
      .error (.valueError "Not all dictionaries have identical keys") ∧
    ∃ ts, setup_chats (.list [ChatElem.record [( "chat_id", .vint 1), ( "x", .vint 9)]])
      (some []) = .ok (some ts) :=
  ⟨(C5_record_validation [[( "chat_id", .vint 0)]] [] (by decide)).1
      ⟨[( "chat_id", .vint 0)], by decide, Or.inr ⟨.vint 0, by decide, by decide⟩⟩,
   (C5_record_validation [[( "chat_id", .vint 1), ( "a", .vint 1)],
      [( "chat_id", .vint 2), ( "b", .vint 1)]] [] (by decide)).2.1
      (by decide)
      ⟨[( "chat_id", .vint 2), ( "b", .vint 1)], by decide, by decide⟩,
   (C5_record_validation [[( "chat_id", .vint 1), ( "x", .vint 9)]] [] (by decide)).2.2
      (by decide) (by decide)⟩

/-- Claim C6: when delivery raises on some target, the exception
propagates out of `run()` (`raised = true`), `_is_running` remains
true, and the dispatcher's id is still present in the process-wide
`running` registry: the `Finished` transition and the registry removal
never execute. -/
theorem C6_exception_propagates (b : Broadcaster) (reg : List Nat) (send : Send)
    (h : ∃ c ∈ b.chats, send (parse_args c).1 (parse_args c).2 = none) :
    (run b reg send).raised = true ∧
    (run b reg send).bc._is_running = true ∧
    b._id ∈ (run b reg send).reg := by
  have hr := runLoop_raised send b.chats { b with _is_running := true } 0 h
  have hir := runLoop_is_running send b.chats { b with _is_running := true } 0
  rcases hres : runLoop send b.chats { b with _is_running := true } 0 with ⟨b2, t, r⟩
  rw [hres] at hr hir
  simp at hr
  subst hr
  simp at hir
  unfold run
  rw [hres]
  simp [hir]

def bC6 : Broadcaster :=
  ⟨[[( "chat_id", .vint 1)], [( "chat_id", .vint 2)]], 0.02, 7, false, [], []⟩

def sendC6 : Send := fun i _ => if i == some (Val.vint 2) then none else some true

/-- Witness for C6: delivery raises on the second of two targets. -/
theorem C6_witness :
    (run bC6 [] sendC6).raised = true ∧
    (run bC6 [] sendC6).bc._is_running = true ∧
    bC6._id ∈ (run bC6 [] sendC6).reg :=
  C6_exception_propagates bC6 [] sendC6
    ⟨[( "chat_id", .vint 2)], by decide, by decide⟩

/-- Claim C7, counterexample: building the target sequence is not free
of side effects on its input — for the record `{chat_id: 5, opt: "a"}`
the caller's record is mutated by `chat.pop('chat_id')` during
construction, so afterwards the `chats` argument no longer equals what
the caller passed in. -/
theorem C7_counterexample :
    setup_chats_final (.list [ChatElem.record [( "chat_id", .vint 5), ( "opt", .vstr "a")]])
        (some []) ≠
      .list [ChatElem.record [( "chat_id", .vint 5), ( "opt", .vstr "a")]] := by
  decide

/-- Claim C7 as amended: construction is deterministic and leaves
scalar and scalar-list inputs untouched, but for structured-record
input passing validation it mutates every caller-supplied record by
popping its identifier field. -/
theorem C7_setup_mutation (a : Dict) :
    (∀ v, setup_chats_final (.scalar v) (some a) = .scalar v) ∧
    (∀ es, es.all ChatElem.isScalar = true →
      setup_chats_final (.list es) (some a) = .list es) ∧
    (∀ rs, rs ≠ [] → (∀ c ∈ rs, idTruthy c = true) → chek_identical_keys rs = true →
      setup_chats_final (.list (rs.map ChatElem.record)) (some a) =
        .list (rs.map (fun c => ChatElem.record (Dict.eraseKey c "chat_id")))) := by
  refine ⟨fun v => rfl, fun es hsc => by simp [setup_chats_final, hsc], ?_⟩
  intro rs hne htr hchek
  cases rs with
  | nil => exact absurd rfl hne
  | cons r rest =>
      have hsc : ((r :: rest).map ChatElem.record).all ChatElem.isScalar = false := by
        simp [ChatElem.isScalar]
      have hrc : ((r :: rest).map ChatElem.record).all ChatElem.isRecord = true := by
        simp [ChatElem.isRecord]
      have hfm : ((r :: rest).map ChatElem.record).filterMap ChatElem.asRecord = r :: rest := by
        rw [List.filterMap_map]
        have hcomp : (ChatElem.asRecord ∘ ChatElem.record) = some := by
          funext d; simp [Function.comp, ChatElem.asRecord]
        rw [hcomp, List.filterMap_some]
      have h1 : (r :: rest).all idTruthy = true := List.all_eq_true.mpr htr
      simp only [setup_chats_final, hsc, hrc, hfm, h1, hchek, Bool.not_true,
        Bool.false_eq_true, if_false]
      rw [pop_all_records, List.map_map]
      refine congrArg ChatsInput.list (List.map_congr_left ?_)
      intro c hc
      simp [Function.comp, htr c hc]

/-- Witness for C7's amended statement at the record
`{chat_id: 5, opt: "a"}`: after construction the record has lost its
`chat_id` key. -/
theorem C7_witness :
    setup_chats_final (.list [ChatElem.record [( "chat_id", .vint 5), ( "opt", .vstr "a")]])
        (some []) =
      .list [ChatElem.record [( "opt", .vstr "a")]] := by
  have h := (C7_setup_mutation []).2.2 [[( "chat_id", .vint 5), ( "opt", .vstr "a")]]
    (by decide) (by decide) (by decide)
  exact h.trans (by decide)

/-- Claim C8: the outcome logs are empty exactly at construction, and a
second run appends its outcomes to the first run's logs rather than
resetting them. -/
theorem C8_outcomes_accumulate :
    (∀ ci a t n b0, init_broadcaster ci a t n = .ok (some b0) →
      b0._successful = [] ∧ b0._failure = []) ∧
    ∀ (b : Broadcaster) (reg : List Nat) (send1 send2 : Send),
      sendOk send1 b.chats → sendOk send2 b.chats →
      (run (run b reg send1).bc (run b reg send1).reg send2).bc._successful =
          (run b reg send1).bc._successful ++ succOf send2 b.chats ∧
        (run (run b reg send1).bc (run b reg send1).reg send2).bc._failure =
          (run b reg send1).bc._failure ++ failOf send2 b.chats ∧
        (run b reg send1).bc._successful = b._successful ++ succOf send1 b.chats ∧
        (run b reg send1).bc._failure = b._failure ++ failOf send1 b.chats := by
  constructor
  · intro ci a t n b0 hb
    unfold init_broadcaster at hb
    rcases hs : setup_chats ci a with e | o
    · rw [hs] at hb; simp at hb
    · rw [hs] at hb
      cases o with
      | none => simp at hb
      | some ts =>
          simp only [Except.ok.injEq, Option.some.injEq] at hb
          subst hb
          exact ⟨rfl, rfl⟩
  · intro b reg send1 send2 h1 h2
    have e1 := run_eq b reg send1 h1
    have hchats : (run b reg send1).bc.chats = b.chats := by rw [e1]
    have h2' : sendOk send2 (run b reg send1).bc.chats := by rw [hchats]; exact h2
    have e2 := run_eq (run b reg send1).bc (run b reg send1).reg send2 h2'
    refine ⟨?_, ?_, ?_, ?_⟩
    · rw [e2, hchats]
    · rw [e2, hchats]
    · rw [e1]
    · rw [e1]

def bC8 : Broadcaster :=
  ⟨[[( "chat_id", .vint 1)], [( "chat_id", .vint 2)]], 0.02, 0, false, [], []⟩

def send1C8 : Send := fun i _ => some (i == some (Val.vint 1))

def send2C8 : Send := fun _ _ => some true

/-- Witness for C8: two consecutive runs; the second run's successes
are appended after the first run's, and likewise for failures. -/
theorem C8_witness :
    (run (run bC8 [] send1C8).bc (run bC8 [] send1C8).reg send2C8).bc._successful =
      [some (.vint 1), some (.vint 1), some (.vint 2)] ∧
    (run (run bC8 [] send1C8).bc (run bC8 [] send1C8).reg send2C8).bc._failure =
      [[( "chat_id", .vint 2)]] := by
  have h := C8_outcomes_accumulate.2 bC8 [] send1C8 send2C8 (by decide) (by decide)
  constructor
  · rw [h.1, h.2.2.1]; decide
  · rw [h.2.1, h.2.2.2]; decide

/-- Claim C9: a run on which delivery never raises completes normally,
sleeping the throttle interval once after every target — the last one
included — for a total suspension of exactly, hence at least,
`N × timeout`. -/
theorem C9_total_sleep (b : Broadcaster) (reg : List Nat) (send : Send)
    (h : sendOk send b.chats) :
    (run b reg send).raised = false ∧
    (run b reg send).slept = (b.chats.length : ℚ) * b.timeout ∧
    (b.chats.length : ℚ) * b.timeout ≤ (run b reg send).slept := by
  rw [run_eq b reg send h]
  exact ⟨rfl, rfl, le_refl _⟩

def bC9 : Broadcaster :=
  ⟨[[( "chat_id", .vint 1)], [( "chat_id", .vint 2)], [( "chat_id", .vint 3)]],
    0.02, 0, false, [], []⟩

def sendC9 : Send := fun _ _ => some true

/-- Witness for C9: three targets, delivery always truthy. -/
theorem C9_witness :
    (run bC9 [] sendC9).slept = (bC9.chats.length : ℚ) * bC9.timeout ∧
    (bC9.chats.length : ℚ) * bC9.timeout ≤ (run bC9 [] sendC9).slept :=
  ⟨(C9_total_sleep bC9 [] sendC9 (by decide)).2.1,
   (C9_total_sleep bC9 [] sendC9 (by decide)).2.2⟩

/-- Claim C10, counterexample: the empty list is a (degenerate) list of
scalar identifiers, and constructing with it while omitting `args`
raises nothing — the comprehension body that would spread `**None`
never runs — so the claim's universal statement fails. -/
theorem C10_counterexample :
    setup_chats (.list []) none = .ok (some []) ∧
    init_broadcaster (.list []) none (2/100 : ℚ) 0 =
      .ok (some ⟨[], (2/100 : ℚ), 0, false, [], []⟩) := by
  exact ⟨rfl, rfl⟩

/-- A supported target-specification shape with at least one element:
a scalar, a nonempty all-scalar list, or a nonempty all-record list. -/
def supported_nonempty : ChatsInput → Bool
  | .scalar _ => true
  | .list es => !es.isEmpty && (es.all ChatElem.isScalar || es.all ChatElem.isRecord)
  | .other => false

/-- Claim C10 as amended: for every nonempty supported target
specification, construction with `args` omitted/`None` raises — a
`TypeError` from spreading `**None`, or an earlier `ValueError` for
invalid records; only the empty list slips through, building an empty
target sequence. -/
theorem C10_none_args_raises (inp : ChatsInput) (h : supported_nonempty inp = true) :
    ∃ e, setup_chats inp none = .error e := by
  cases inp with
  | scalar v => exact ⟨.typeError, rfl⟩
  | other => simp [supported_nonempty] at h
  | list es =>
      simp only [supported_nonempty, Bool.and_eq_true, Bool.not_eq_true',
        Bool.or_eq_true] at h
      obtain ⟨hne, hall⟩ := h
      have hne' : es ≠ [] := by
        cases es with
        | nil => simp at hne
        | cons e es' => exact List.cons_ne_nil e es'
      by_cases hsc : es.all ChatElem.isScalar = true
      · refine ⟨.typeError, ?_⟩
        have hemp : es.isEmpty = false := hne
        simp [setup_chats, hsc, hemp]
      · have hrc : es.all ChatElem.isRecord = true := by
          rcases hall with hall | hall
          · exact absurd hall hsc
          · exact hall
        have hrs_ne : es.filterMap ChatElem.asRecord ≠ [] := by
          cases es with
          | nil => exact absurd rfl hne'
          | cons e es' =>
              cases e with
              | record d => simp [ChatElem.asRecord]
              | scalar v => simp [ChatElem.isRecord] at hrc
              | other => simp [ChatElem.isRecord] at hrc
        by_cases h1 : (es.filterMap ChatElem.asRecord).all idTruthy = true
        · by_cases h2 : chek_identical_keys (es.filterMap ChatElem.asRecord) = true
          · refine ⟨.typeError, ?_⟩
            have hfilter : (es.filterMap ChatElem.asRecord).filter idTruthy =
                es.filterMap ChatElem.asRecord :=
              List.filter_eq_self.mpr (List.all_eq_true.mp h1)
            have hemp : ((es.filterMap ChatElem.asRecord).filter idTruthy).isEmpty = false := by
              rw [hfilter]
              cases hcc : es.filterMap ChatElem.asRecord with
              | nil => exact absurd hcc hrs_ne
              | cons x xs => rfl
            simp [setup_chats, hsc, hrc, h1, h2, hemp]
          · exact ⟨.valueError "Not all dictionaries have identical keys",
              by simp [setup_chats, hsc, hrc, h1, h2]⟩
        · exact ⟨.valueError "Not all dictionaries have the \"chat_id\" key",
            by simp [setup_chats, hsc, hrc, h1]⟩

/-- Witness for C10's amended statement: a scalar target specification
with `args=None` raises. -/
theorem C10_witness :
    supported_nonempty (.scalar (.vint 5)) = true ∧
    ∃ e, setup_chats (.scalar (.vint 5)) none = .error e :=
  ⟨rfl, C10_none_args_raises (.scalar (.vint 5)) rfl⟩

end AiogramBroadcaster
